import Mathlib

/-!
Verification development for the maha7 scalping analyzer
(src/maha7_scalping_app.py).

Shallow embedding conventions:
* Prices and derived levels are modelled as rationals. The Python code
  computes with floats, but every claim under study is about the control
  flow and the exact formulas (comparisons, 0.99 and 1.5 multipliers),
  none about rounding, so exact arithmetic is the faithful reading.
* A pandas DataFrame column that a function may or may not add is
  modelled with Option: none means the function returned the input
  frame unchanged without creating the column.
* A NaN cell in the Stop_Loss / Take_Profit columns is modelled as
  none in a List (Option Rat): the columns are initialized to NaN and a
  cell becomes some v exactly when the loop writes value v.
* safe_float applied to an ordinary numeric cell is the identity, so
  the embedding reads cell values directly.
* The per-bar try/except-continue in calculate_signals is modelled by
  an oracle errs : Nat -> Bool telling which bar indices raise: a bar
  whose computation raises is left with its default values and the
  loop continues, exactly as the except-branch does.
-/

namespace Maha7

/-- One bar of market data as the fractal detector reads it:
only the High and Low cells are consulted. -/
structure HLBar where
  high : Rat
  low : Rat
deriving Inhabited, DecidableEq

/-- Body of the first loop of calculate_fractals (source lines 149-160):
the buy-fractal flag the loop writes at index i. Indices outside
range(2, len(df)-2) keep the initialized value False. -/
def fractalBuyAt (df : List HLBar) (i : Nat) : Bool :=
  if 2 ≤ i ∧ i + 2 < df.length then
    let hi := (df.getD i default).high
    decide ((df.getD (i - 2) default).high < hi) &&
    decide ((df.getD (i - 1) default).high < hi) &&
    decide (hi > (df.getD (i + 1) default).high) &&
    decide (hi > (df.getD (i + 2) default).high)
  else false

/-- Body of the second loop of calculate_fractals (source lines 163-174):
the sell-fractal flag written at index i. -/
def fractalSellAt (df : List HLBar) (i : Nat) : Bool :=
  if 2 ≤ i ∧ i + 2 < df.length then
    let lo := (df.getD i default).low
    decide ((df.getD (i - 2) default).low > lo) &&
    decide ((df.getD (i - 1) default).low > lo) &&
    decide (lo < (df.getD (i + 1) default).low) &&
    decide (lo < (df.getD (i + 2) default).low)
  else false

/-- calculate_fractals (source lines 137-185). Guard: if the frame is
None, empty, or has fewer than 5 rows, the input is returned unchanged
and the Fractal_Buy / Fractal_Sell columns are never created (modelled
by none). Otherwise both columns are created, initialized to False, and
the two loops set the flags; the loops read only the input High/Low
cells, so the mutation is a pointwise map over the row indices. The
bars themselves are never modified, so the embedding returns only the
new columns. -/
def calculate_fractals (df : List HLBar) : Option (List Bool × List Bool) :=
  if df.length < 5 then none
  else some ((List.range df.length).map (fractalBuyAt df),
             (List.range df.length).map (fractalSellAt df))

/-- One bar as the signal generator reads it: the Close cell and the
three EMA cells of that row (columns EMA_{ema_short}, EMA_{ema_medium},
EMA_{ema_long} as computed upstream by analyze_stock). -/
structure SigBar where
  close : Rat
  emaS : Rat
  emaM : Rat
  emaL : Rat
deriving Inhabited, DecidableEq

/-- The frame handed to calculate_signals: the annotated rows, and the
Fractal_Buy column when it exists (calculate_fractals leaves it absent
on short input, hence the Option). -/
structure SigInput where
  rows : List SigBar
  fractalBuy : Option (List Bool)
deriving Inhabited

/-- The four columns calculate_signals creates (source lines 196-199),
each of the frame's length; a Stop_Loss / Take_Profit cell is none
while it still holds the initial NaN. -/
structure SignalCols where
  buySignal : List Bool
  sellSignal : List Bool
  stopLoss : List (Option Rat)
  takeProfit : List (Option Rat)
deriving DecidableEq

/-- Fractal gate read at bar i (source lines 221-223): False when the
Fractal_Buy column is absent, else bool(df.Fractal_Buy.iloc i). -/
def fractalGateAt (inp : SigInput) (i : Nat) : Bool :=
  match inp.fractalBuy with
  | some fb => fb.getD i false
  | none => false

/-- The buy condition tested by the loop body at index i >= 1 (source
lines 204-226): alignment at i-1, close below short EMA at i-1, close
above short EMA at i, and the fractal gate at i. -/
def buyCondAt (inp : SigInput) (i : Nat) : Bool :=
  let prev := inp.rows.getD (i - 1) default
  let curr := inp.rows.getD i default
  decide (prev.emaS > prev.emaM) && decide (prev.emaM > prev.emaL) &&
  decide (prev.close < prev.emaS) && decide (curr.close > curr.emaS) &&
  fractalGateAt inp i

/-- Buy_Signal cell at index i: the loop runs for i in range(1, len(df)),
so index 0 keeps the initialized False. -/
def buySignalAt (inp : SigInput) (i : Nat) : Bool :=
  if i = 0 then false else buyCondAt inp i

/-- stop_loss written on trigger at bar i (source line 230):
EMA_medium at i times 0.99. -/
def stopLossVal (inp : SigInput) (i : Nat) : Rat :=
  (inp.rows.getD i default).emaM * (99 / 100)

/-- take_profit written on trigger at bar i (source lines 233-235):
entry + risk * 1.5 with entry = Close at i and risk = entry - stop_loss. -/
def takeProfitVal (inp : SigInput) (i : Nat) : Rat :=
  let entry := (inp.rows.getD i default).close
  let risk := entry - stopLossVal inp i
  entry + risk * (3 / 2)

/-- calculate_signals with the per-bar exception oracle errs (source
lines 188-243). Guard (line 192): if the frame is None, empty, or has
no more rows than ema_long, it is returned unchanged and no column is
created (none). Otherwise Buy_Signal / Sell_Signal are initialized to
False and Stop_Loss / Take_Profit to NaN, and the loop over
i in range(1, len(df)) fills them; a bar i whose body raises (errs i)
is skipped by the except-continue (line 239-241) and keeps its default
cells. The body reads only input columns, never cells written by other
iterations, so the loop is a pointwise map over indices. Sell_Signal is
never written anywhere. -/
def calculate_signals_err (inp : SigInput) (emaLong : Nat) (errs : Nat → Bool) :
    Option SignalCols :=
  let n := inp.rows.length
  if n ≤ emaLong then none
  else some
    { buySignal := (List.range n).map fun i =>
        if errs i then false else buySignalAt inp i
      sellSignal := List.replicate n false
      stopLoss := (List.range n).map fun i =>
        if errs i then none
        else if buySignalAt inp i then some (stopLossVal inp i) else none
      takeProfit := (List.range n).map fun i =>
        if errs i then none
        else if buySignalAt inp i then some (takeProfitVal inp i) else none }

/-- calculate_signals on a run where no bar raises. -/
def calculate_signals (inp : SigInput) (emaLong : Nat) : Option SignalCols :=
  calculate_signals_err inp emaLong (fun _ => false)

/-- One row as calculate_backtest_results reads it: Close/Low/High,
the Buy_Signal flag, and the Stop_Loss / Take_Profit cells (none models
the NaN those columns hold off signal bars). -/
structure BTBar where
  close : Rat
  low : Rat
  high : Rat
  buySignal : Bool
  stopLoss : Option Rat
  takeProfit : Option Rat
deriving Inhabited, DecidableEq

/-- Outcome of scanning one signal's future bars. -/
inductive TradeOutcome where
  | win (exit_price : Rat)
  | loss (exit_price : Rat)
  | unresolved
deriving DecidableEq

/-- The inner scan of calculate_backtest_results (source lines 465-476):
walk the future bars in order; on the first bar with Low <= stop_loss
classify loss with exit_price = stop_loss and stop; otherwise on a bar
with High >= take_profit classify win with exit_price = take_profit and
stop; the Low test comes first in the body, so a bar satisfying both
classifies as a loss. Running out of bars leaves both reached-flags
False: unresolved. -/
def classifyTrade (sl tp : Rat) : List BTBar → TradeOutcome
  | [] => .unresolved
  | b :: rest =>
    if b.low ≤ sl then .loss sl
    else if b.high ≥ tp then .win tp
    else classifyTrade sl tp rest

/-- The aggregate record calculate_backtest_results builds
(source lines 423-432), all fields initialized to zero. -/
structure BTResults where
  total_signals : Nat
  wins : Nat
  losses : Nat
  win_rate : Rat
  avg_profit : Rat
  avg_loss : Rat
  profit_factor : Rat
  total_return : Rat
deriving DecidableEq

/-- The zero-initialized results dict (source lines 423-432). -/
def zeroResults : BTResults :=
  { total_signals := 0, wins := 0, losses := 0, win_rate := 0,
    avg_profit := 0, avg_loss := 0, profit_factor := 0, total_return := 0 }

/-- Body of the per-signal loop (source lines 443-486) for the signal
row bar sitting at positional index idx of data: read entry_price from
Close; continue if Stop_Loss or Take_Profit is NaN; take the bars
strictly after idx; continue if there are none; scan them with
classifyTrade; then increment wins and accumulate avg_profit, or
increment losses and accumulate avg_loss, or change nothing when
unresolved. The source file breaks off mid-token inside the loss
branch at line 486; the accumulation written there, avg_loss += the
loss percent, is completed from the spec (section 4.3 percent_return
accounting). -/
def processSignal (data : List BTBar) (idx : Nat) (bar : BTBar)
    (acc : BTResults) : BTResults :=
  let entry := bar.close
  match bar.stopLoss, bar.takeProfit with
  | some sl, some tp =>
    let future := data.drop (idx + 1)
    if future.isEmpty then acc
    else
      match classifyTrade sl tp future with
      | .win exit_price =>
        { acc with wins := acc.wins + 1,
                   avg_profit := acc.avg_profit + (exit_price - entry) / entry * 100 }
      | .loss exit_price =>
        { acc with losses := acc.losses + 1,
                   avg_loss := acc.avg_loss + (exit_price - entry) / entry * 100 }
      | .unresolved => acc
  | _, _ => acc

/-- calculate_backtest_results (source lines 413-486). hasBuyCol models
whether the Buy_Signal column exists on the frame. Guards (lines
416-421): None/empty data or a missing Buy_Signal column return None.
The signal rows are selected with their index labels (modelled by
positional enumeration, faithful because the frame index is strictly
increasing); with no signal rows the zero record is returned before
any per-signal work (lines 437-438); otherwise total_signals is set to
the number of signal rows (line 440) and the loop processes each
signal in order. The aggregation that would follow the loop is lost
with the truncated tail of the source file; no claim under study
reaches it, so the record as of the end of the loop is returned. -/
def calculate_backtest_results (data : List BTBar) (hasBuyCol : Bool) :
    Option BTResults :=
  if data.isEmpty then none
  else if !hasBuyCol then none
  else
    let buy_signals := data.enum.filter fun p => p.2.buySignal
    if buy_signals.isEmpty then some zeroResults
    else
      let init := { zeroResults with total_signals := buy_signals.length }
      some (buy_signals.foldl (fun acc p => processSignal data p.1 p.2 acc) init)

/-! Concrete inputs used to witness the claim theorems. -/

/-- A 5-bar series with an isolated peak of High (and trough of Low) at
index 2. -/
def dfPeak : List HLBar :=
  [⟨1, 10⟩, ⟨2, 9⟩, ⟨5, 5⟩, ⟨2, 9⟩, ⟨1, 10⟩]

/-- A 4-bar series: one bar short of the fractal detector's guard. -/
def df4 : List HLBar :=
  [⟨1, 1⟩, ⟨2, 2⟩, ⟨5, 5⟩, ⟨2, 2⟩]

/-- A 2-bar annotated frame that fires a buy signal at bar 1: bar 0
is aligned (3 > 2 > 1) with close 2 below the short EMA 3, bar 1
closes at 5 above its short EMA 4 and carries the fractal flag. Its
medium EMA 10 puts the stop above the entry, so the recorded risk is
negative. -/
def sigEx : SigInput :=
  { rows := [⟨2, 3, 2, 1⟩, ⟨5, 4, 10, 0⟩], fractalBuy := some [false, true] }

/-- The columns calculate_signals produces on sigEx with ema_long = 1:
stop 10 * 0.99 = 99/10 and target 5 + (5 - 99/10) * 1.5 = -47/20. -/
def sigColsEx : SignalCols :=
  { buySignal := [false, true], sellSignal := [false, false],
    stopLoss := [none, some (99 / 10)], takeProfit := [none, some (-47 / 20)] }

/-- The columns produced on sigEx when the per-bar computation raises
at index 1: that bar keeps its defaults. -/
def sigColsErrEx : SignalCols :=
  { buySignal := [false, false], sellSignal := [false, false],
    stopLoss := [none, none], takeProfit := [none, none] }

/-- A signal row for the backtest: entry 15, stop 10, target 20. -/
def btSigBar : BTBar := ⟨15, 14, 16, true, some 10, some 20⟩

/-- A later bar touching neither threshold (low 12 > 10, high 18 < 20). -/
def btNoTouchBar : BTBar := ⟨15, 12, 18, false, none, none⟩

/-- A later bar touching both thresholds (low 5, high 25) on the same
bar. -/
def btBothBar : BTBar := ⟨15, 5, 25, false, none, none⟩

/-- Backtest input whose one signal first meets a no-touch bar and
then a bar touching both thresholds at once. -/
def btLossEx : List BTBar := [btSigBar, btNoTouchBar, btBothBar]

/-- Backtest input whose one signal never sees a threshold touched. -/
def btUnresEx : List BTBar := [btSigBar, btNoTouchBar]

/-! Helper lemmas shared by the claim theorems. -/

theorem getD_map_range {α : Type} (f : Nat → α) (n i : Nat) (d : α) :
    ((List.range n).map f).getD i d = if i < n then f i else d := by
  rcases Nat.lt_or_ge i n with h | h
  · rw [List.getD_eq_getElem?_getD, List.getElem?_map, List.getElem?_range h]
    simp [h]
  · rw [List.getD_eq_getElem?_getD, List.getElem?_map,
      List.getElem?_eq_none (by simpa using h)]
    simp [Nat.not_lt_of_ge h]

theorem filter_enumFrom_buy_nil (data : List BTBar) (k : Nat)
    (h : ∀ b ∈ data, b.buySignal = false) :
    (List.enumFrom k data).filter (fun p => p.2.buySignal) = [] := by
  induction data generalizing k with
  | nil => rfl
  | cons b rest ih =>
    have hb : b.buySignal = false := h b (List.mem_cons_self b rest)
    simp only [List.enumFrom, List.filter, hb]
    exact ih (k + 1) (fun c hc => h c (List.mem_cons_of_mem b hc))

theorem length_filter_enumFrom_buy (data : List BTBar) (k : Nat) :
    ((List.enumFrom k data).filter (fun p => p.2.buySignal)).length
      = (data.filter (fun b => b.buySignal)).length := by
  induction data generalizing k with
  | nil => rfl
  | cons b rest ih =>
    cases hb : b.buySignal <;>
      simp [List.enumFrom, List.filter, hb, ih (k + 1)]

theorem processSignal_total (data : List BTBar) (idx : Nat) (bar : BTBar)
    (acc : BTResults) :
    (processSignal data idx bar acc).total_signals = acc.total_signals := by
  unfold processSignal
  rcases bar.stopLoss with _ | sl <;> rcases bar.takeProfit with _ | tp <;> simp
  split
  · rfl
  · rcases classifyTrade sl tp (data.drop (idx + 1)) with e | e | _ <;> rfl

theorem processSignal_wl (data : List BTBar) (idx : Nat) (bar : BTBar)
    (acc : BTResults) :
    (processSignal data idx bar acc).wins + (processSignal data idx bar acc).losses
      ≤ acc.wins + acc.losses + 1 := by
  unfold processSignal
  rcases bar.stopLoss with _ | sl
  · simp
  rcases bar.takeProfit with _ | tp
  · simp
  simp only []
  split
  · omega
  · rcases classifyTrade sl tp (data.drop (idx + 1)) with e | e | _ <;> simp <;> omega

theorem foldl_processSignal_total (data : List BTBar)
    (sigs : List (Nat × BTBar)) (acc : BTResults) :
    (sigs.foldl (fun a p => processSignal data p.1 p.2 a) acc).total_signals
      = acc.total_signals := by
  induction sigs generalizing acc with
  | nil => rfl
  | cons p rest ih =>
    rw [List.foldl_cons, ih, processSignal_total]

theorem foldl_processSignal_wl (data : List BTBar)
    (sigs : List (Nat × BTBar)) (acc : BTResults) :
    (sigs.foldl (fun a p => processSignal data p.1 p.2 a) acc).wins
      + (sigs.foldl (fun a p => processSignal data p.1 p.2 a) acc).losses
      ≤ acc.wins + acc.losses + sigs.length := by
  induction sigs generalizing acc with
  | nil => simp
  | cons p rest ih =>
    rw [List.foldl_cons]
    calc _ ≤ (processSignal data p.1 p.2 acc).wins
             + (processSignal data p.1 p.2 acc).losses + rest.length := ih _
    _ ≤ acc.wins + acc.losses + 1 + rest.length :=
        Nat.add_le_add_right (processSignal_wl data p.1 p.2 acc) _
    _ = acc.wins + acc.losses + (p :: rest).length := by
        simp [List.length_cons]; omega

/-! Claim theorems. -/

/-- C4: when the fractal columns were produced, for every index i in
[2, n-3] the buy flag holds iff High at i strictly exceeds High at
i-2, i-1, i+1, i+2 and the sell flag holds iff Low at i is strictly
below Low at those four neighbors; and for a strictly monotonic High
series (either direction) no buy fractal fires anywhere, likewise for
a strictly monotonic Low series and sell fractals. -/
theorem fractal_flags_characterization (df : List HLBar) (fb fs : List Bool)
    (hcols : calculate_fractals df = some (fb, fs)) :
    (∀ i, 2 ≤ i → i + 2 < df.length →
      ((fb.getD i false = true ↔
        ((df.getD i default).high > (df.getD (i - 2) default).high ∧
         (df.getD i default).high > (df.getD (i - 1) default).high ∧
         (df.getD i default).high > (df.getD (i + 1) default).high ∧
         (df.getD i default).high > (df.getD (i + 2) default).high)) ∧
       (fs.getD i false = true ↔
        ((df.getD i default).low < (df.getD (i - 2) default).low ∧
         (df.getD i default).low < (df.getD (i - 1) default).low ∧
         (df.getD i default).low < (df.getD (i + 1) default).low ∧
         (df.getD i default).low < (df.getD (i + 2) default).low)))) ∧
    (((∀ j, j + 1 < df.length →
          (df.getD j default).high < (df.getD (j + 1) default).high) ∨
      (∀ j, j + 1 < df.length →
          (df.getD (j + 1) default).high < (df.getD j default).high)) →
      ∀ i, fb.getD i false = false) ∧
    (((∀ j, j + 1 < df.length →
          (df.getD j default).low < (df.getD (j + 1) default).low) ∨
      (∀ j, j + 1 < df.length →
          (df.getD (j + 1) default).low < (df.getD j default).low)) →
      ∀ i, fs.getD i false = false) := by
  have h5 : ¬ df.length < 5 := by
    intro h
    simp [calculate_fractals, h] at hcols
  rw [calculate_fractals, if_neg h5, Option.some.injEq, Prod.mk.injEq] at hcols
  obtain ⟨hfb, hfs⟩ := hcols
  subst hfb hfs
  refine ⟨?_, ?_, ?_⟩
  · intro i h2 hlt
    have hi : i < df.length := by omega
    constructor
    · rw [getD_map_range, if_pos hi, fractalBuyAt, if_pos ⟨h2, hlt⟩]
      simp only [Bool.and_eq_true, decide_eq_true_eq]
      constructor
      · rintro ⟨⟨⟨a, b⟩, c⟩, d⟩
        exact ⟨a, b, c, d⟩
      · rintro ⟨a, b, c, d⟩
        exact ⟨⟨⟨a, b⟩, c⟩, d⟩
    · rw [getD_map_range, if_pos hi, fractalSellAt, if_pos ⟨h2, hlt⟩]
      simp only [Bool.and_eq_true, decide_eq_true_eq]
      constructor
      · rintro ⟨⟨⟨a, b⟩, c⟩, d⟩
        exact ⟨a, b, c, d⟩
      · rintro ⟨a, b, c, d⟩
        exact ⟨⟨⟨a, b⟩, c⟩, d⟩
  · rintro (hmono | hmono) i
    · rw [getD_map_range]
      split
      · rw [fractalBuyAt]
        split
        · rename_i hg
          rw [Bool.eq_false_iff]
          intro hcond
          simp only [Bool.and_eq_true, decide_eq_true_eq] at hcond
          exact absurd hcond.1.2 (lt_asymm (hmono i (by omega)))
        · rfl
      · rfl
    · rw [getD_map_range]
      split
      · rw [fractalBuyAt]
        split
        · rename_i hg
          rw [Bool.eq_false_iff]
          intro hcond
          simp only [Bool.and_eq_true, decide_eq_true_eq] at hcond
          have hstep := hmono (i - 1) (by omega)
          rw [Nat.sub_add_cancel (by omega : 1 ≤ i)] at hstep
          exact absurd hcond.1.1.2 (lt_asymm hstep)
        · rfl
      · rfl
  · rintro (hmono | hmono) i
    · rw [getD_map_range]
      split
      · rw [fractalSellAt]
        split
        · rename_i hg
          rw [Bool.eq_false_iff]
          intro hcond
          simp only [Bool.and_eq_true, decide_eq_true_eq] at hcond
          have hstep := hmono (i - 1) (by omega)
          rw [Nat.sub_add_cancel (by omega : 1 ≤ i)] at hstep
          exact absurd hcond.1.1.2 (lt_asymm hstep)
        · rfl
      · rfl
    · rw [getD_map_range]
      split
      · rw [fractalSellAt]
        split
        · rename_i hg
          rw [Bool.eq_false_iff]
          intro hcond
          simp only [Bool.and_eq_true, decide_eq_true_eq] at hcond
          exact absurd hcond.1.2 (lt_asymm (hmono i (by omega)))
        · rfl
      · rfl

/-- Witness for C4 at the concrete series dfPeak: the flag lists are
computed by decide and the buy flag at the peak index 2 is true. -/
theorem fractal_flags_characterization_witness :
    ([false, false, true, false, false] : List Bool).getD 2 false = true :=
  ((fractal_flags_characterization dfPeak
      [false, false, true, false, false] [false, false, true, false, false]
      (by decide)).1 2 (by decide) (by decide)).1.mpr (by decide)

/-- C5 counterexample: on a 4-bar series the detector's guard
(len(df) < 5) returns the frame unchanged, so the Fractal_Buy and
Fractal_Sell columns do not exist, refuting the claim at n = 4. -/
theorem fractal_columns_missing_on_four_bars :
    df4.length = 4 ∧ calculate_fractals df4 = none := by decide

/-- C5 (amended): for every input series with at least 5 bars the
fractal columns are created, cover every bar, and the flags at indices
0, 1, n-2, n-1 are false. -/
theorem fractal_columns_on_five_or_more_bars (df : List HLBar)
    (h : 5 ≤ df.length) :
    (calculate_fractals df).isSome = true ∧
    ∀ fb fs, calculate_fractals df = some (fb, fs) →
      fb.length = df.length ∧ fs.length = df.length ∧
      fb.getD 0 true = false ∧ fb.getD 1 true = false ∧
      fb.getD (df.length - 2) true = false ∧
      fb.getD (df.length - 1) true = false ∧
      fs.getD 0 true = false ∧ fs.getD 1 true = false ∧
      fs.getD (df.length - 2) true = false ∧
      fs.getD (df.length - 1) true = false := by
  have h5 : ¬ df.length < 5 := by omega
  constructor
  · rw [calculate_fractals, if_neg h5]
    rfl
  · intro fb fs hcols
    rw [calculate_fractals, if_neg h5, Option.some.injEq, Prod.mk.injEq] at hcols
    obtain ⟨hfb, hfs⟩ := hcols
    subst hfb hfs
    refine ⟨by simp, by simp, ?_, ?_, ?_, ?_, ?_, ?_, ?_, ?_⟩
    · rw [getD_map_range, if_pos (by omega), fractalBuyAt, if_neg (by omega)]
    · rw [getD_map_range, if_pos (by omega), fractalBuyAt, if_neg (by omega)]
    · rw [getD_map_range, if_pos (by omega), fractalBuyAt, if_neg (by omega)]
    · rw [getD_map_range, if_pos (by omega), fractalBuyAt, if_neg (by omega)]
    · rw [getD_map_range, if_pos (by omega), fractalSellAt, if_neg (by omega)]
    · rw [getD_map_range, if_pos (by omega), fractalSellAt, if_neg (by omega)]
    · rw [getD_map_range, if_pos (by omega), fractalSellAt, if_neg (by omega)]
    · rw [getD_map_range, if_pos (by omega), fractalSellAt, if_neg (by omega)]

/-- Witness for the amended C5 at the concrete 5-bar series dfPeak. -/
theorem fractal_columns_on_five_or_more_bars_witness :
    (calculate_fractals dfPeak).isSome = true :=
  (fractal_columns_on_five_or_more_bars dfPeak (by decide)).1

/-- The guard of calculate_signals: columns come back only when the
frame is longer than the long EMA window. -/
theorem signals_guard (inp : SigInput) (emaLong : Nat) (errs : Nat → Bool)
    (cols : SignalCols) (hcols : calculate_signals_err inp emaLong errs = some cols) :
    emaLong < inp.rows.length := by
  by_cases h : inp.rows.length ≤ emaLong
  · simp [calculate_signals_err, h] at hcols
  · omega

/-- Shape of the Buy_Signal column produced by calculate_signals_err. -/
theorem signals_buySignal_eq (inp : SigInput) (emaLong : Nat) (errs : Nat → Bool)
    (cols : SignalCols) (hcols : calculate_signals_err inp emaLong errs = some cols) :
    cols.buySignal = (List.range inp.rows.length).map fun i =>
      if errs i then false else buySignalAt inp i := by
  have h : ¬ inp.rows.length ≤ emaLong := Nat.not_le_of_lt (signals_guard _ _ _ _ hcols)
  rw [calculate_signals_err] at hcols
  simp only [if_neg h, Option.some.injEq] at hcols
  rw [← hcols]

/-- Shape of the Sell_Signal column produced by calculate_signals_err. -/
theorem signals_sellSignal_eq (inp : SigInput) (emaLong : Nat) (errs : Nat → Bool)
    (cols : SignalCols) (hcols : calculate_signals_err inp emaLong errs = some cols) :
    cols.sellSignal = List.replicate inp.rows.length false := by
  have h : ¬ inp.rows.length ≤ emaLong := Nat.not_le_of_lt (signals_guard _ _ _ _ hcols)
  rw [calculate_signals_err] at hcols
  simp only [if_neg h, Option.some.injEq] at hcols
  rw [← hcols]

/-- Shape of the Stop_Loss column produced by calculate_signals_err. -/
theorem signals_stopLoss_eq (inp : SigInput) (emaLong : Nat) (errs : Nat → Bool)
    (cols : SignalCols) (hcols : calculate_signals_err inp emaLong errs = some cols) :
    cols.stopLoss = (List.range inp.rows.length).map fun i =>
      if errs i then none
      else if buySignalAt inp i then some (stopLossVal inp i) else none := by
  have h : ¬ inp.rows.length ≤ emaLong := Nat.not_le_of_lt (signals_guard _ _ _ _ hcols)
  rw [calculate_signals_err] at hcols
  simp only [if_neg h, Option.some.injEq] at hcols
  rw [← hcols]

/-- Shape of the Take_Profit column produced by calculate_signals_err. -/
theorem signals_takeProfit_eq (inp : SigInput) (emaLong : Nat) (errs : Nat → Bool)
    (cols : SignalCols) (hcols : calculate_signals_err inp emaLong errs = some cols) :
    cols.takeProfit = (List.range inp.rows.length).map fun i =>
      if errs i then none
      else if buySignalAt inp i then some (takeProfitVal inp i) else none := by
  have h : ¬ inp.rows.length ≤ emaLong := Nat.not_le_of_lt (signals_guard _ _ _ _ hcols)
  rw [calculate_signals_err] at hcols
  simp only [if_neg h, Option.some.injEq] at hcols
  rw [← hcols]

/-- The concrete run of calculate_signals on sigEx. -/
theorem sigEx_cols : calculate_signals sigEx 1 = some sigColsEx := by
  have h2 : List.range 2 = [0, 1] := rfl
  simp [calculate_signals, calculate_signals_err, sigEx, sigColsEx,
    buySignalAt, buyCondAt, fractalGateAt, stopLossVal, takeProfitVal, h2]
  norm_num

/-- The concrete run of calculate_signals on sigEx with the per-bar
computation raising at index 1. -/
theorem sigEx_colsErr :
    calculate_signals_err sigEx 1 (fun j => j == 1) = some sigColsErrEx := by decide

/-- C1: in the annotated output, Buy_Signal at bar 0 is false, and for
every bar i in [1, n-1] Buy_Signal is true iff the alignment at i-1
(short EMA above medium above long, both strict), the crossover (close
below the short EMA at i-1 and above it at i), and the Fractal_Buy
flag at i all hold. -/
theorem buy_signal_iff_alignment_cross_fractal (inp : SigInput) (emaLong : Nat)
    (cols : SignalCols) (fbcol : List Bool)
    (hcols : calculate_signals inp emaLong = some cols)
    (hfb : inp.fractalBuy = some fbcol) :
    cols.buySignal.getD 0 false = false ∧
    ∀ i, 1 ≤ i → i < inp.rows.length →
      (cols.buySignal.getD i false = true ↔
        (((inp.rows.getD (i - 1) default).emaS > (inp.rows.getD (i - 1) default).emaM ∧
          (inp.rows.getD (i - 1) default).emaM > (inp.rows.getD (i - 1) default).emaL) ∧
         ((inp.rows.getD (i - 1) default).close < (inp.rows.getD (i - 1) default).emaS ∧
          (inp.rows.getD i default).close > (inp.rows.getD i default).emaS) ∧
         fbcol.getD i false = true)) := by
  have hn := signals_guard _ _ _ _ hcols
  have hbuy := signals_buySignal_eq _ _ _ _ hcols
  constructor
  · rw [hbuy, getD_map_range, if_pos (by omega)]
    simp [buySignalAt]
  · intro i h1 hi
    rw [hbuy, getD_map_range, if_pos hi]
    simp only [if_false, Bool.false_eq_true]
    rw [buySignalAt, if_neg (by omega), buyCondAt]
    simp only [fractalGateAt, hfb, Bool.and_eq_true, decide_eq_true_eq]
    tauto

/-- Witness for C1 at the concrete frame sigEx: bar 0 carries no
signal and bar 1, where all three conditions hold, does. -/
theorem buy_signal_iff_alignment_cross_fractal_witness :
    sigColsEx.buySignal.getD 0 false = false ∧
    sigColsEx.buySignal.getD 1 false = true :=
  ⟨(buy_signal_iff_alignment_cross_fractal sigEx 1 sigColsEx [false, true]
      sigEx_cols rfl).1,
   ((buy_signal_iff_alignment_cross_fractal sigEx 1 sigColsEx [false, true]
      sigEx_cols rfl).2 1 (by decide) (by decide)).mpr (by decide)⟩

/-- C2: on every signal bar the recorded levels are exactly
Stop_Loss = EMA_medium at i times 0.99 and
Take_Profit = Close at i plus 1.5 times (Close at i minus Stop_Loss);
no positivity of the risk is required for the cells to be written. -/
theorem signal_levels_formulas (inp : SigInput) (emaLong : Nat) (cols : SignalCols)
    (hcols : calculate_signals inp emaLong = some cols) :
    ∀ i, i < inp.rows.length → cols.buySignal.getD i false = true →
      cols.stopLoss.getD i none = some ((inp.rows.getD i default).emaM * (99 / 100)) ∧
      cols.takeProfit.getD i none =
        some ((inp.rows.getD i default).close +
          (3 / 2) * ((inp.rows.getD i default).close -
            (inp.rows.getD i default).emaM * (99 / 100))) := by
  intro i hi hsig
  have hbuy := signals_buySignal_eq _ _ _ _ hcols
  have hsl := signals_stopLoss_eq _ _ _ _ hcols
  have htp := signals_takeProfit_eq _ _ _ _ hcols
  rw [hbuy, getD_map_range, if_pos hi] at hsig
  simp only [Bool.false_eq_true, if_false] at hsig
  constructor
  · rw [hsl, getD_map_range, if_pos hi]
    simp only [Bool.false_eq_true, if_false, hsig, if_true]
    rfl
  · rw [htp, getD_map_range, if_pos hi]
    simp only [Bool.false_eq_true, if_false, hsig, if_true]
    simp only [takeProfitVal, stopLossVal, Option.some.injEq]
    ring

/-- Witness for C2 at the concrete frame sigEx: the signal at bar 1
has its stop above the entry (risk at most 0) and the levels are still
recorded with the exact formulas. -/
theorem signal_levels_formulas_witness :
    ((sigEx.rows.getD 1 default).close -
        (sigEx.rows.getD 1 default).emaM * (99 / 100) ≤ 0) ∧
    sigColsEx.stopLoss.getD 1 none =
      some ((sigEx.rows.getD 1 default).emaM * (99 / 100)) ∧
    sigColsEx.takeProfit.getD 1 none =
      some ((sigEx.rows.getD 1 default).close +
        (3 / 2) * ((sigEx.rows.getD 1 default).close -
          (sigEx.rows.getD 1 default).emaM * (99 / 100))) :=
  ⟨by norm_num [sigEx], signal_levels_formulas sigEx 1 sigColsEx sigEx_cols 1
    (by decide) (by decide)⟩

/-- C9: the Sell_Signal column of the annotated output equals the
all-false column for every input and every error pattern: it is
initialized to False and no operation of the pass sets it. -/
theorem sell_signal_never_set (inp : SigInput) (emaLong : Nat) (errs : Nat → Bool)
    (cols : SignalCols)
    (hcols : calculate_signals_err inp emaLong errs = some cols) :
    cols.sellSignal = List.replicate inp.rows.length false :=
  signals_sellSignal_eq _ _ _ _ hcols

/-- Witness for C9 at the concrete frame sigEx. -/
theorem sell_signal_never_set_witness :
    sigColsEx.sellSignal = List.replicate sigEx.rows.length false :=
  sell_signal_never_set sigEx 1 (fun _ => false) sigColsEx sigEx_cols

/-- C8: when the per-bar computation raises at exactly index k, bar k
keeps its defaults (Buy_Signal false, Stop_Loss and Take_Profit NaN)
while every other bar's derived cells equal those of the error-free
run, Sell_Signal included. -/
theorem per_bar_error_isolation (inp : SigInput) (emaLong : Nat) (k : Nat)
    (cols colsErr : SignalCols)
    (hclean : calculate_signals inp emaLong = some cols)
    (herr : calculate_signals_err inp emaLong (fun j => j == k) = some colsErr) :
    (colsErr.buySignal.getD k false = false ∧
     colsErr.stopLoss.getD k none = none ∧
     colsErr.takeProfit.getD k none = none) ∧
    (∀ j, j ≠ k →
      colsErr.buySignal.getD j false = cols.buySignal.getD j false ∧
      colsErr.stopLoss.getD j none = cols.stopLoss.getD j none ∧
      colsErr.takeProfit.getD j none = cols.takeProfit.getD j none) ∧
    colsErr.sellSignal = cols.sellSignal := by
  have hbuyC := signals_buySignal_eq _ _ _ _ hclean
  have hslC := signals_stopLoss_eq _ _ _ _ hclean
  have htpC := signals_takeProfit_eq _ _ _ _ hclean
  have hsellC := signals_sellSignal_eq _ _ _ _ hclean
  have hbuyE := signals_buySignal_eq _ _ _ _ herr
  have hslE := signals_stopLoss_eq _ _ _ _ herr
  have htpE := signals_takeProfit_eq _ _ _ _ herr
  have hsellE := signals_sellSignal_eq _ _ _ _ herr
  refine ⟨⟨?_, ?_, ?_⟩, ?_, ?_⟩
  · rw [hbuyE, getD_map_range]
    split
    · simp
    · rfl
  · rw [hslE, getD_map_range]
    split
    · simp
    · rfl
  · rw [htpE, getD_map_range]
    split
    · simp
    · rfl
  · intro j hjk
    have hne : (j == k) = false := by simp [hjk]
    refine ⟨?_, ?_, ?_⟩
    · rw [hbuyE, hbuyC, getD_map_range, getD_map_range, hne]
    · rw [hslE, hslC, getD_map_range, getD_map_range, hne]
    · rw [htpE, htpC, getD_map_range, getD_map_range, hne]
  · rw [hsellE, hsellC]

/-- Witness for C8 at the concrete frame sigEx with the error at index
1: the erroring bar is defaulted and bar 0 is untouched. -/
theorem per_bar_error_isolation_witness :
    (sigColsErrEx.buySignal.getD 1 false = false ∧
     sigColsErrEx.stopLoss.getD 1 none = none ∧
     sigColsErrEx.takeProfit.getD 1 none = none) ∧
    sigColsErrEx.buySignal.getD 0 false = sigColsEx.buySignal.getD 0 false :=
  ⟨(per_bar_error_isolation sigEx 1 1 sigColsEx sigColsErrEx
      sigEx_cols sigEx_colsErr).1,
   ((per_bar_error_isolation sigEx 1 1 sigColsEx sigColsErrEx
      sigEx_cols sigEx_colsErr).2.1 0 (by decide)).1⟩

/-- C7: on insufficient input the pipeline degrades instead of
faulting: a frame with no more rows than the long EMA window comes
back from calculate_signals unchanged, without the signal columns, and
the backtest returns None on an empty frame or one missing the
Buy_Signal column. -/
theorem graceful_short_input :
    (∀ (inp : SigInput) (emaLong : Nat), inp.rows.length ≤ emaLong →
      calculate_signals inp emaLong = none) ∧
    (∀ (data : List BTBar) (hasBuyCol : Bool), data = [] ∨ hasBuyCol = false →
      calculate_backtest_results data hasBuyCol = none) := by
  constructor
  · intro inp emaLong h
    simp [calculate_signals, calculate_signals_err, h]
  · intro data hasBuyCol h
    rcases h with h | h
    · subst h
      rfl
    · subst h
      simp [calculate_backtest_results]

/-- Witness for C7: a 1-bar frame against a 5-bar window, and the
empty frame in the backtest. -/
theorem graceful_short_input_witness :
    calculate_signals { rows := [⟨1, 1, 1, 1⟩], fractalBuy := none } 5 = none ∧
    calculate_backtest_results [] true = none :=
  ⟨graceful_short_input.1 _ 5 (by decide), graceful_short_input.2 [] true (Or.inl rfl)⟩

/-- A future series whose bars all stay strictly inside the
thresholds leaves the scan unresolved. -/
theorem classifyTrade_no_touch (sl tp : Rat) (future : List BTBar)
    (h : ∀ c ∈ future, sl < c.low ∧ c.high < tp) :
    classifyTrade sl tp future = .unresolved := by
  induction future with
  | nil => rfl
  | cons b rest ih =>
    have hb := h b (List.mem_cons_self b rest)
    rw [classifyTrade, if_neg (not_le_of_lt hb.1), if_neg (not_le_of_lt hb.2)]
    exact ih fun c hc => h c (List.mem_cons_of_mem b hc)

/-- The scan skips over a no-touch stretch of bars unchanged. -/
theorem classifyTrade_skip (sl tp : Rat) (pre rest : List BTBar)
    (h : ∀ c ∈ pre, sl < c.low ∧ c.high < tp) :
    classifyTrade sl tp (pre ++ rest) = classifyTrade sl tp rest := by
  induction pre with
  | nil => rfl
  | cons b pre ih =>
    have hb := h b (List.mem_cons_self b pre)
    rw [List.cons_append, classifyTrade, if_neg (not_le_of_lt hb.1),
      if_neg (not_le_of_lt hb.2)]
    exact ih fun c hc => h c (List.mem_cons_of_mem b hc)

/-- C3: for a signal at position s with defined stop and target, the
per-signal pass scans the bars strictly after s in order and the first
bar touching a threshold decides the trade: Low at or below the stop
classifies it as a loss exiting exactly at the stop, even when the
same bar's High also reaches the target (stop-loss precedence);
otherwise High at or above the target classifies it as a win exiting
exactly at the target; and when no later bar touches either threshold
the signal is left unresolved, counted in neither wins nor losses. -/
theorem backtest_first_touch_classification (data : List BTBar) (s : Nat)
    (bar : BTBar) (sl tp : Rat) (acc : BTResults)
    (hsl : bar.stopLoss = some sl) (htp : bar.takeProfit = some tp) :
    (∀ pre b rest, data.drop (s + 1) = pre ++ b :: rest →
      (∀ c ∈ pre, sl < c.low ∧ c.high < tp) →
      b.low ≤ sl →
      processSignal data s bar acc =
        { acc with losses := acc.losses + 1,
                   avg_loss := acc.avg_loss + (sl - bar.close) / bar.close * 100 }) ∧
    (∀ pre b rest, data.drop (s + 1) = pre ++ b :: rest →
      (∀ c ∈ pre, sl < c.low ∧ c.high < tp) →
      ¬ b.low ≤ sl → b.high ≥ tp →
      processSignal data s bar acc =
        { acc with wins := acc.wins + 1,
                   avg_profit := acc.avg_profit + (tp - bar.close) / bar.close * 100 }) ∧
    ((∀ c ∈ data.drop (s + 1), sl < c.low ∧ c.high < tp) →
      processSignal data s bar acc = acc) := by
  refine ⟨?_, ?_, ?_⟩
  · intro pre b rest hdrop hpre hb
    simp only [processSignal, hsl, htp, hdrop]
    rw [List.isEmpty_eq_false_iff_exists_mem.mpr ⟨b, by simp⟩]
    rw [classifyTrade_skip sl tp pre (b :: rest) hpre, classifyTrade, if_pos hb]
    rfl
  · intro pre b rest hdrop hpre hb htp2
    simp only [processSignal, hsl, htp, hdrop]
    rw [List.isEmpty_eq_false_iff_exists_mem.mpr ⟨b, by simp⟩]
    rw [classifyTrade_skip sl tp pre (b :: rest) hpre, classifyTrade, if_neg hb,
      if_pos htp2]
    rfl
  · intro hno
    simp only [processSignal, hsl, htp]
    split
    · rfl
    · rw [classifyTrade_no_touch sl tp _ hno]

/-- Witness for C3 at the concrete series btLossEx: after one no-touch
bar, a bar touching both thresholds classifies the trade as a loss
exiting at the stop. -/
theorem backtest_first_touch_classification_witness :
    processSignal btLossEx 0 btSigBar zeroResults =
      { zeroResults with
          losses := zeroResults.losses + 1,
          avg_loss := zeroResults.avg_loss +
            ((10 : Rat) - btSigBar.close) / btSigBar.close * 100 } :=
  (backtest_first_touch_classification btLossEx 0 btSigBar 10 20 zeroResults
      rfl rfl).1 [btNoTouchBar] btBothBar [] rfl (by decide) (by decide)

/-- C6: on a frame with the Buy_Signal column but no true signal, the
backtest returns the record whose eight aggregate fields are all zero;
in particular win_rate is 0 and no division is attempted. -/
theorem backtest_zero_record_when_no_signals (data : List BTBar)
    (hne : data ≠ []) (hall : ∀ b ∈ data, b.buySignal = false) :
    calculate_backtest_results data true = some zeroResults ∧
    zeroResults.total_signals = 0 ∧ zeroResults.wins = 0 ∧
    zeroResults.losses = 0 ∧ zeroResults.win_rate = 0 ∧
    zeroResults.avg_profit = 0 ∧ zeroResults.avg_loss = 0 ∧
    zeroResults.profit_factor = 0 ∧ zeroResults.total_return = 0 := by
  have hemp : data.isEmpty = false := by
    cases data
    · exact absurd rfl hne
    · rfl
  have hfil : (data.enum.filter fun p => p.2.buySignal) = [] :=
    filter_enumFrom_buy_nil data 0 hall
  refine ⟨?_, rfl, rfl, rfl, rfl, rfl, rfl, rfl, rfl⟩
  rw [calculate_backtest_results]
  simp only [hemp, Bool.false_eq_true, if_false, Bool.not_true, hfil]
  rfl

/-- Witness for C6 at a concrete signal-free one-bar frame. -/
theorem backtest_zero_record_when_no_signals_witness :
    calculate_backtest_results [btNoTouchBar] true = some zeroResults :=
  (backtest_zero_record_when_no_signals [btNoTouchBar] (by simp) (by decide)).1

/-- C10: whenever the backtest returns a record, total_signals equals
the number of bars whose Buy_Signal is true, set before any per-signal
work, and wins plus losses never exceeds it (NaN-skipped and
unresolved signals stay counted). -/
theorem total_signals_counts_all_buy_bars (data : List BTBar) (hasBuyCol : Bool)
    (r : BTResults) (h : calculate_backtest_results data hasBuyCol = some r) :
    r.total_signals = (data.filter fun b => b.buySignal).length ∧
    r.wins + r.losses ≤ r.total_signals := by
  rw [calculate_backtest_results] at h
  by_cases hemp : data.isEmpty
  · simp [hemp] at h
  · by_cases hcol : hasBuyCol
    · simp only [hemp, Bool.false_eq_true, if_false, hcol, Bool.not_true] at h
      by_cases hsig : (data.enum.filter fun p => p.2.buySignal).isEmpty
      · rw [if_pos hsig, Option.some.injEq] at h
        have hnil := List.isEmpty_iff.mp hsig
        have hlen := length_filter_enumFrom_buy data 0
        rw [show data.enum = List.enumFrom 0 data from rfl] at hnil
        rw [hnil] at hlen
        rw [← h, ← hlen]
        exact ⟨rfl, by simp [zeroResults]⟩
      · rw [if_neg hsig, Option.some.injEq] at h
        have hlen := length_filter_enumFrom_buy data 0
        rw [← h]
        constructor
        · rw [foldl_processSignal_total]
          exact hlen
        · rw [foldl_processSignal_total]
          have hb := foldl_processSignal_wl data
            (data.enum.filter fun p => p.2.buySignal)
            { zeroResults with
                total_signals := (data.enum.filter fun p => p.2.buySignal).length }
          simpa [zeroResults] using hb
    · simp [hcol] at h

/-- Witness for C10 at the concrete series btUnresEx: one unresolved
signal, counted in total_signals but in neither wins nor losses. -/
theorem total_signals_counts_all_buy_bars_witness :
    (1 : Nat) = (btUnresEx.filter fun b => b.buySignal).length ∧
    (0 : Nat) + 0 ≤ 1 := by
  have h := total_signals_counts_all_buy_bars btUnresEx true
    { zeroResults with total_signals := 1 } (by decide)
  exact ⟨h.1, h.2⟩

end Maha7
